import Mathlib

set_option maxRecDepth 65536

/-!
Verification of the B-Transfer core against its specification: the
password-based file-locking cipher (`encrypt_file` / `decrypt_file` in
`b_transfer_server.py`) and the chunked-upload session manager
(`UltraUploadManager` in `ultra_upload.py`, plus its HTTP route wrappers).

Bytes are modelled as `List Nat`.  The cryptographic primitives
(PBKDF2-HMAC-SHA256 key derivation, HMAC-SHA256, AES-256-CBC) and the gzip
codec live in libraries outside this repository, so the embedding is
parametric over them; the algebraic laws they satisfy (length preservation,
decrypt-inverts-encrypt, 32-byte MAC output, decompress-inverts-compress)
appear as explicit hypotheses of the theorems.  Concrete executable
stand-ins for these primitives are provided for witness instantiation.
-/

/-- Errors raised by `decrypt_file` (`b_transfer_server.py` lines 120-149):
`invalidEnvelope` is the `ValueError("Invalid encrypted data")` for envelopes
shorter than 80 bytes; `authFailed` is the
`ValueError("Invalid password or corrupted data")` raised when the HMAC tag
does not verify; `cipherError` models the `cryptography` library raising when
the ciphertext length is not a multiple of the AES block size; `indexError`
models Python raising `IndexError` on `padded_data[-1]` when the decrypted
data is empty. -/
inductive DecryptError where
  | invalidEnvelope
  | authFailed
  | cipherError
  | indexError
  deriving DecidableEq

instance {ε α : Type} [DecidableEq ε] [DecidableEq α] : DecidableEq (Except ε α) :=
  fun a b =>
    match a, b with
    | .ok x, .ok y =>
        if h : x = y then .isTrue (by simp [h]) else .isFalse (by simp [h])
    | .error x, .error y =>
        if h : x = y then .isTrue (by simp [h]) else .isFalse (by simp [h])
    | .ok _, .error _ => .isFalse (by simp)
    | .error _, .ok _ => .isFalse (by simp)

/-- `encrypt_file(file_data, password)` from `b_transfer_server.py` lines
93-118, with the library primitives (`kdfF` = PBKDF2 key derivation, `hmacF`
= HMAC-SHA256, `encF` = AES-256-CBC encryption) passed as parameters and the
two `os.urandom(16)` draws (`salt`, `iv`) passed as arguments.  Pads to a
16-byte boundary with `padding_length = 16 - len % 16` bytes each equal to
`padding_length`, encrypts, MACs `iv ++ ciphertext`, and returns
`salt ++ iv ++ mac ++ ciphertext`. -/
def encrypt_file (kdfF : List Nat → List Nat → List Nat)
    (hmacF : List Nat → List Nat → List Nat)
    (encF : List Nat → List Nat → List Nat → List Nat)
    (salt iv file_data password : List Nat) : List Nat :=
  let key := kdfF password salt
  let padding_length := 16 - file_data.length % 16
  let padded_data := file_data ++ List.replicate padding_length padding_length
  let encrypted_data := encF key iv padded_data
  let mac := hmacF key (iv ++ encrypted_data)
  salt ++ iv ++ mac ++ encrypted_data

/-- `decrypt_file(encrypted_data, password)` from `b_transfer_server.py`
lines 120-149.  Rejects envelopes shorter than 80 bytes, splits
`salt(16) ++ iv(16) ++ mac(32) ++ ciphertext`, re-derives the key, verifies
the HMAC over `iv ++ ciphertext` before anything else, then decrypts and
strips `padded_data[-1]` trailing bytes with no validation of the padding
(Python `padded_data[:-n]`, which for `n = 0` yields the empty string and
for `n > len` also yields the empty string). -/
def decrypt_file (kdfF : List Nat → List Nat → List Nat)
    (hmacF : List Nat → List Nat → List Nat)
    (decF : List Nat → List Nat → List Nat → List Nat)
    (encrypted_data password : List Nat) : Except DecryptError (List Nat) :=
  if encrypted_data.length < 80 then .error .invalidEnvelope
  else
    let salt := encrypted_data.take 16
    let iv := (encrypted_data.drop 16).take 16
    let mac := (encrypted_data.drop 32).take 32
    let encrypted := encrypted_data.drop 64
    let key := kdfF password salt
    if hmacF key (iv ++ encrypted) ≠ mac then .error .authFailed
    else if encrypted.length % 16 ≠ 0 then .error .cipherError
    else
      let padded_data := decF key iv encrypted
      match padded_data.getLast? with
      | none => .error .indexError
      | some padding_length =>
          .ok (if padding_length = 0 then []
               else padded_data.take (padded_data.length - padding_length))

/-- Concrete executable stand-in for the external key-derivation primitive,
used only to instantiate the parametric model in witnesses. -/
def kdfC (password salt : List Nat) : List Nat := password ++ salt

/-- Concrete executable stand-in for the external HMAC-SHA256 primitive
(32-byte output), used only to instantiate the parametric model in
witnesses. -/
def hmacC (key msg : List Nat) : List Nat :=
  List.replicate 32 ((key.sum + msg.sum) % 256)

/-- Concrete executable stand-in for the external block-cipher encryption
primitive, used only to instantiate the parametric model in witnesses. -/
def encC (_key _iv : List Nat) (padded : List Nat) : List Nat := padded

/-- Concrete executable stand-in for the external block-cipher decryption
primitive, used only to instantiate the parametric model in witnesses. -/
def decC (_key _iv : List Nat) (ct : List Nat) : List Nat := ct

/-! ### Chunked-upload manager (`ultra_upload.py`) -/

/-- The `UploadChunk` dataclass (`ultra_upload.py` lines 23-31);
`upload_time` is a `datetime` in the source, modelled as an abstract `Nat`
timestamp. -/
structure UploadChunk where
  chunk_id : Int
  data : List Nat
  checksum : String
  size : Nat
  compressed : Bool
  upload_time : Nat
  deriving DecidableEq

/-- The `UploadSession` dataclass (lines 33-46).  `uploaded_chunks` is a
Python dict, modelled as an association list in insertion order;
`total_size` and `total_chunks` are Python ints, hence `Int` (the source
never rules out non-positive sizes). -/
structure UploadSession where
  session_id : String
  filename : String
  total_size : Int
  chunk_size : Nat
  total_chunks : Int
  uploaded_chunks : List (Int × UploadChunk)
  start_time : Nat
  last_activity : Nat
  status : String
  compression_enabled : Bool
  parallel_processing : Bool
  deriving DecidableEq

/-- Manager configuration read from environment variables in
`UltraUploadManager.__init__` (lines 62-65); defaults: 1 MiB chunks,
compression and parallel processing enabled.  The Redis client is `None`
throughout (the spec requires the core to function with the mirror absent),
so the best-effort Redis branches of the source are omitted. -/
structure UploadConfig where
  chunk_size : Nat
  enable_compression : Bool
  enable_parallel : Bool
  deriving DecidableEq

/-- The default configuration values of `UltraUploadManager.__init__`. -/
def defaultConfig : UploadConfig := ⟨1048576, true, true⟩

/-- `self.active_uploads` (line 68): dict from session id to session,
modelled as an association list in insertion order. -/
abbrev Manager := List (String × UploadSession)

/-- Python dict lookup, modelled on association lists with decidable
equality on the keys. -/
def alookup {kt : Type} [DecidableEq kt] {vt : Type} (k : kt) :
    List (kt × vt) → Option vt
  | [] => none
  | p :: rest => if p.1 = k then some p.2 else alookup k rest

/-- Python dict assignment on a key that is already present: the value is
replaced in place (used for mutation of the session object held in
`active_uploads`). -/
def updateSession (mgr : Manager) (sid : String) (s : UploadSession) : Manager :=
  mgr.map (fun p => if p.1 = sid then (p.1, s) else p)

/-- `create_upload_session(filename, total_size)` (lines 91-132).  The
session id is derived from `hashlib.sha256(filename + time)` in the source;
the hash is external, so the fresh id is passed as the parameter `sid`
(the spec guarantees it does not collide with a live session).
`total_chunks = (total_size + chunk_size - 1) // chunk_size` with Python
floor division, hence `Int.fdiv`.  No validation of `total_size` is
performed here. -/
def create_upload_session (cfg : UploadConfig) (mgr : Manager)
    (filename : String) (total_size : Int) (sid : String) (now : Nat) :
    Manager :=
  let total_chunks : Int :=
    (total_size + (cfg.chunk_size : Int) - 1).fdiv (cfg.chunk_size : Int)
  let session : UploadSession :=
    { session_id := sid, filename := filename, total_size := total_size,
      chunk_size := cfg.chunk_size, total_chunks := total_chunks,
      uploaded_chunks := [], start_time := now, last_activity := now,
      status := "uploading", compression_enabled := cfg.enable_compression,
      parallel_processing := cfg.enable_parallel }
  mgr ++ [(sid, session)]

/-- The result dict of `upload_chunk` (lines 134-203).  `zeroDivisionError`
models Python raising `ZeroDivisionError` at line 202
(`len(...) / session.total_chunks * 100`) when `total_chunks = 0`; note the
chunk has already been stored (line 174) when this is raised.  The float
`progress` entry of the result dict is cosmetic and omitted. -/
inductive ChunkResult where
  | notFound            -- 'Upload session not found'
  | invalidIndex        -- 'Invalid chunk ID'
  | duplicate           -- 'Chunk already uploaded'
  | zeroDivisionError
  | success (chunk_id : Int) (checksum : String) (size : Nat)
      (compressed : Bool)
  deriving DecidableEq

/-- Lines 148-170 of `upload_chunk`: the checksum of the payload exactly as
submitted (MD5 via the external `hashlib`, modelled as the parameter
`md5F`), optional gzip compression (parameter `compressF`) attempted for
payloads over 1024 bytes and kept only when strictly smaller, and
construction of the `UploadChunk` record whose `size` is the length of the
(possibly compressed) stored form. -/
def processChunk (cfg : UploadConfig) (compressF : List Nat → List Nat)
    (md5F : List Nat → String) (chunk_id : Int) (chunk_data : List Nat)
    (now : Nat) : UploadChunk :=
  let checksum := md5F chunk_data
  let stored : List Nat × Bool :=
    if cfg.enable_compression ∧ 1024 < chunk_data.length then
      let compressed_data := compressF chunk_data
      if compressed_data.length < chunk_data.length then (compressed_data, true)
      else (chunk_data, false)
    else (chunk_data, false)
  { chunk_id := chunk_id, data := stored.1, checksum := checksum,
    size := stored.1.length, compressed := stored.2, upload_time := now }

/-- `upload_chunk(session_id, chunk_id, chunk_data)` (lines 134-203).
Checks, in source order: session existence, `chunk_id >= total_chunks`
(note: no lower bound — negative indices pass), dict membership of
`chunk_id`; then stores the processed chunk and updates `last_activity`.
The session status is never consulted. -/
def upload_chunk (cfg : UploadConfig) (compressF : List Nat → List Nat)
    (md5F : List Nat → String) (mgr : Manager) (session_id : String)
    (chunk_id : Int) (chunk_data : List Nat) (now : Nat) :
    ChunkResult × Manager :=
  match alookup session_id mgr with
  | none => (.notFound, mgr)
  | some session =>
    if session.total_chunks ≤ chunk_id then (.invalidIndex, mgr)
    else if (alookup chunk_id session.uploaded_chunks).isSome then
      (.duplicate, mgr)
    else
      let chunk := processChunk cfg compressF md5F chunk_id chunk_data now
      let session' := { session with
        uploaded_chunks := session.uploaded_chunks ++ [(chunk_id, chunk)],
        last_activity := now }
      let mgr' := updateSession mgr session_id session'
      if session.total_chunks = 0 then (.zeroDivisionError, mgr')
      else
        (.success chunk_id chunk.checksum chunk.size chunk.compressed, mgr')

/-- The report dict of `get_upload_progress` (lines 224-239).  The
float-valued entries derived from wall-clock time
(`progress_percent`, `speed_bps`, `speed_mbps`, `elapsed_time`,
`eta_seconds`) are cosmetic float arithmetic over `datetime.now()` and are
omitted; what matters to the spec is `uploaded_size`, the sum of the
stored (post-compression) chunk sizes. -/
structure ProgressReport where
  session_id : String
  filename : String
  total_size : Int
  uploaded_size : Nat
  total_chunks : Int
  uploaded_chunks : Nat
  status : String
  compression_enabled : Bool
  parallel_processing : Bool
  deriving DecidableEq

/-- Result of `get_upload_progress`; `zeroDivisionError` models Python
raising `ZeroDivisionError` at line 213 when `session.total_chunks = 0`. -/
inductive ProgressResult where
  | notFound
  | zeroDivisionError
  | ok (report : ProgressReport)
  deriving DecidableEq

/-- `get_upload_progress(session_id)` (lines 205-239).  The division
`len(session.uploaded_chunks) / session.total_chunks` at line 213 raises
`ZeroDivisionError` when `total_chunks = 0`, before anything is returned. -/
def get_upload_progress (mgr : Manager) (session_id : String) :
    ProgressResult :=
  match alookup session_id mgr with
  | none => .notFound
  | some session =>
    if session.total_chunks = 0 then .zeroDivisionError
    else
      let uploaded_bytes : Nat :=
        (session.uploaded_chunks.map (fun p => p.2.size)).sum
      .ok { session_id := session.session_id, filename := session.filename,
            total_size := session.total_size, uploaded_size := uploaded_bytes,
            total_chunks := session.total_chunks,
            uploaded_chunks := session.uploaded_chunks.length,
            status := session.status,
            compression_enabled := session.compression_enabled,
            parallel_processing := session.parallel_processing }

/-- Result of `assemble_file` (lines 241-322).  `success` carries the
assembled output bytes (the content the source writes to `output_path`) and
the final size; `decompressError` is the early `return {'error': ...}` at
line 273 inside the inner `except` — that return path does NOT set the
session status to `'failed'` (only exceptions reaching the outer `except`
at line 317 do).  The final-size comparison at lines 278-280 is a logged
warning only and is not part of the result. -/
inductive AssembleResult where
  | notFound            -- 'Upload session not found'
  | incomplete          -- 'Not all chunks uploaded'
  | decompressError     -- 'Decompression failed: ...'
  | success (output : List Nat) (final_size : Nat)
  deriving DecidableEq

/-- The assembly loop (lines 264-275): concatenate chunk payloads in the
given order, decompressing (`decompressF`, modelling `gzip.decompress` with
`none` = raise) any chunk whose `compressed` flag is set; the first failure
aborts the loop. -/
def concatChunks (decompressF : List Nat → Option (List Nat)) :
    List UploadChunk → Option (List Nat)
  | [] => some []
  | c :: rest =>
    match (if c.compressed then decompressF c.data else some c.data) with
    | none => none
    | some piece =>
      match concatChunks decompressF rest with
      | none => none
      | some tail => some (piece ++ tail)

/-- `assemble_file(session_id, output_path)` (lines 241-322).  Python's
stable `sorted(..., key=lambda x: x.chunk_id)` over the dict values is
modelled by a stable insertion sort on the values in insertion order. -/
def assemble_file (decompressF : List Nat → Option (List Nat))
    (mgr : Manager) (session_id : String) : AssembleResult × Manager :=
  match alookup session_id mgr with
  | none => (.notFound, mgr)
  | some session =>
    if (session.uploaded_chunks.length : Int) ≠ session.total_chunks then
      (.incomplete, mgr)
    else
      let session1 := { session with status := "assembling" }
      let mgr1 := updateSession mgr session_id session1
      let sorted_chunks :=
        List.insertionSort (fun a b => a.chunk_id ≤ b.chunk_id)
          (session1.uploaded_chunks.map Prod.snd)
      match concatChunks decompressF sorted_chunks with
      | none => (.decompressError, mgr1)
      | some output =>
        let session2 :=
          { session1 with status := "completed", uploaded_chunks := [] }
        (.success output output.length, updateSession mgr session_id session2)

/-- `ALLOWED_EXTENSIONS` (`b_transfer_server.py` lines 49-52). -/
def ALLOWED_EXTENSIONS : List String :=
  ["txt", "pdf", "png", "jpg", "jpeg", "gif", "heic", "heif", "mp4", "avi",
   "mov", "mp3", "wav", "zip", "rar", "7z", "doc", "docx", "xls", "xlsx",
   "ppt", "pptx", "csv"]

/-- `MAX_FILE_SIZE_PER_UPLOAD` (`b_transfer_server.py` line 46): 5 GB. -/
def MAX_FILE_SIZE_PER_UPLOAD : Int := 5 * 1024 * 1024 * 1024

/-- `allowed_file(filename)` (`b_transfer_server.py` lines 65-66):
`'.' in filename and filename.rsplit('.', 1)[1].lower() in
ALLOWED_EXTENSIONS`.  The extension is everything after the last dot,
lowercased (the extension table is pure ASCII, so `Char.toLower` agrees
with Python `str.lower` on every input that can match). -/
def allowed_file (filename : String) : Bool :=
  let cs := filename.toList
  let ext :=
    String.mk ((cs.reverse.takeWhile (fun c => c ≠ '.')).reverse.map Char.toLower)
  decide ('.' ∈ cs) && decide (ext ∈ ALLOWED_EXTENSIONS)

/-- Decision outcome of the `POST /api/upload/session` route
(`b_transfer_server.py` lines 2126-2163), given an already-parsed JSON body
providing `filename` and `total_size`.  The only size validation is the
upper bound against `MAX_FILE_SIZE_PER_UPLOAD`. -/
inductive RouteCreateResult where
  | fileTooLarge        -- 'File size exceeds maximum limit ...'
  | fileTypeNotAllowed  -- 'File type not allowed'
  | success (session_id : String) (total_chunks : Int)
  deriving DecidableEq

/-- The `create_upload_session` route handler (lines 2126-2163), reduced to
its decision logic on parsed inputs. -/
def route_create_upload_session (cfg : UploadConfig) (mgr : Manager)
    (filename : String) (total_size : Int) (sid : String) (now : Nat) :
    RouteCreateResult × Manager :=
  if MAX_FILE_SIZE_PER_UPLOAD < total_size then (.fileTooLarge, mgr)
  else if ¬ allowed_file filename then (.fileTypeNotAllowed, mgr)
  else
    (.success sid
      ((total_size + (cfg.chunk_size : Int) - 1).fdiv (cfg.chunk_size : Int)),
     create_upload_session cfg mgr filename total_size sid now)

/-- Concrete executable stand-in for the external `gzip.compress`, used only
to instantiate the parametric model in witnesses. -/
def gzipC (d : List Nat) : List Nat := d

/-- Concrete executable stand-in for the external `gzip.decompress`, used
only to instantiate the parametric model in witnesses. -/
def gunzipC (d : List Nat) : Option (List Nat) := some d

/-- Concrete executable stand-in for the external `hashlib.md5(...).hexdigest()`,
used only to instantiate the parametric model in witnesses. -/
def md5C (_d : List Nat) : String := "0cc175b9c0f1b6a831c399e269772661"

/-- A placeholder session record, used only as the (never-taken) default of
`Option.getD` in witness statements. -/
def emptySession : UploadSession :=
  { session_id := "", filename := "", total_size := 0, chunk_size := 0,
    total_chunks := 0, uploaded_chunks := [], start_time := 0,
    last_activity := 0, status := "", compression_enabled := false,
    parallel_processing := false }

/-- Looking up a session after mutating it in place finds the new value. -/
theorem alookup_updateSession_self (mgr : Manager) (sid : String)
    (s s0 : UploadSession) (h : alookup sid mgr = some s0) :
    alookup sid (updateSession mgr sid s) = some s := by
  induction mgr with
  | nil => simp [alookup] at h
  | cons p rest ih =>
    by_cases hp : p.1 = sid
    · simp [updateSession, alookup, hp]
    · have h' : alookup sid rest = some s0 := by
        simpa [alookup, hp] using h
      simpa [updateSession, alookup, hp] using ih h'

/-- Inserting a session under a fresh id makes it visible to lookup. -/
theorem alookup_append_fresh (mgr : Manager) (sid : String) (s : UploadSession)
    (h : alookup sid mgr = none) : alookup sid (mgr ++ [(sid, s)]) = some s := by
  induction mgr with
  | nil => simp [alookup]
  | cons p rest ih =>
    by_cases hp : p.1 = sid
    · simp [alookup, hp] at h
    · have h' : alookup sid rest = none := by simpa [alookup, hp] using h
      simpa [alookup, hp] using ih h'

/-- C5 — the claim is right and the code is wrong: `upload_chunk` only
checks `chunk_id >= session.total_chunks` (`ultra_upload.py` line 142), so
a negative index passes validation.  Failing input: a fresh session for a
3-byte file (`total_chunks = 1`) and `PutChunk` with `chunk_id = -1`: the
call returns success and the chunk is stored under key `-1`, instead of
failing with `InvalidIndex` and leaving the chunk map unchanged. -/
theorem upload_chunk_accepts_negative_index :
    (upload_chunk defaultConfig gzipC md5C
        (create_upload_session defaultConfig [] "f.txt" 3 "s" 0)
        "s" (-1) [9] 1).1 =
      .success (-1) (md5C [9]) 1 false ∧
    ((upload_chunk defaultConfig gzipC md5C
        (create_upload_session defaultConfig [] "f.txt" 3 "s" 0)
        "s" (-1) [9] 1).2.map
      (fun p => (alookup (-1) p.2.uploaded_chunks).isSome)) = [true] := by
  exact ⟨by decide, by decide⟩

/-- C7 — the claim is right and the code is wrong: the
`POST /api/upload/session` route (`b_transfer_server.py` lines 2126-2163)
validates only `total_size > MAX_FILE_SIZE_PER_UPLOAD`; `total_size ≤ 0` is
accepted.  Failing inputs `total_size = 0` and `total_size = -5`: a session
entry is created (with `total_chunks = 0`), and the follow-up
`get_upload_progress` call raises `ZeroDivisionError` at line 213 of
`ultra_upload.py`. -/
theorem create_session_accepts_nonpositive_size :
    (route_create_upload_session defaultConfig [] "a.txt" 0 "s" 5).1 =
      .success "s" 0 ∧
    (alookup "s"
      (route_create_upload_session defaultConfig [] "a.txt" 0 "s" 5).2).isSome
      = true ∧
    get_upload_progress
      (route_create_upload_session defaultConfig [] "a.txt" 0 "s" 5).2 "s" =
      .zeroDivisionError ∧
    (route_create_upload_session defaultConfig [] "a.txt" (-5) "s" 5).1 =
      .success "s" 0 ∧
    (alookup "s"
      (route_create_upload_session defaultConfig [] "a.txt" (-5) "s" 5).2).isSome
      = true := by
  exact ⟨by decide, by decide, by decide, by decide, by decide⟩

/-- C8: a `PutChunk` whose index is already stored fails with
`'Chunk already uploaded'` (`ultra_upload.py` lines 145-146) and the manager
state — in particular the previously stored chunk's payload, checksum, size
and flags — is unchanged by the rejected call. -/
theorem upload_chunk_duplicate_rejected (cfg : UploadConfig)
    (compressF : List Nat → List Nat) (md5F : List Nat → String)
    (mgr : Manager) (sid : String) (session : UploadSession) (cid : Int)
    (data : List Nat) (now : Nat)
    (hs : alookup sid mgr = some session)
    (hidx : ¬ session.total_chunks ≤ cid)
    (hdup : (alookup cid session.uploaded_chunks).isSome = true) :
    upload_chunk cfg compressF md5F mgr sid cid data now = (.duplicate, mgr) := by
  simp [upload_chunk, hs, hidx, hdup]

/-- Witness for C8: submit chunk 0 twice on a fresh one-chunk session; the
second call is rejected as a duplicate and leaves the state unchanged. -/
theorem upload_chunk_duplicate_rejected_witness :
    upload_chunk defaultConfig gzipC md5C
      (upload_chunk defaultConfig gzipC md5C
        (create_upload_session defaultConfig [] "f.txt" 3 "s" 0)
        "s" 0 [5] 1).2 "s" 0 [6] 2 =
      (.duplicate,
       (upload_chunk defaultConfig gzipC md5C
        (create_upload_session defaultConfig [] "f.txt" 3 "s" 0)
        "s" 0 [5] 1).2) :=
  upload_chunk_duplicate_rejected defaultConfig gzipC md5C _ "s"
    ((alookup "s"
      (upload_chunk defaultConfig gzipC md5C
        (create_upload_session defaultConfig [] "f.txt" 3 "s" 0)
        "s" 0 [5] 1).2).getD emptySession)
    0 [6] 2 (by decide) (by decide) (by decide)

/-- The manager state after a full happy-path trace: create a one-chunk
session, upload chunk 0, assemble.  The session is left in `active_uploads`
with status `'completed'` and an empty chunk map. -/
def completedMgr : Manager :=
  (assemble_file gunzipC
    (upload_chunk defaultConfig gzipC md5C
      (create_upload_session defaultConfig [] "f.txt" 3 "s" 0)
      "s" 0 [5] 1).2
    "s").2

/-- C6 counterexample: after a session reaches status `'completed'` (via
`assemble_file`, which also clears the chunk map), a further `PutChunk`
with index 0 is accepted and stored — `upload_chunk` never consults
`session.status`, so chunk writes are still accepted after the status
leaves `'uploading'`, contrary to the claim. -/
theorem upload_chunk_after_completion_accepted :
    (alookup "s" completedMgr).map UploadSession.status = some "completed" ∧
    (upload_chunk defaultConfig gzipC md5C completedMgr "s" 0 [6] 2).1 =
      .success 0 (md5C [6]) 1 false ∧
    ((alookup "s"
        (upload_chunk defaultConfig gzipC md5C completedMgr "s" 0 [6] 2).2).map
      (fun s => (alookup 0 s.uploaded_chunks).isSome)) = some true := by
  exact ⟨by decide, by decide, by decide⟩

/-- C6 as amended: `upload_chunk` (`ultra_upload.py` lines 134-203) never
consults the session status; a `PutChunk` on a session whose status is not
`'uploading'` is accepted and stored whenever the session exists, the index
passes the upper-bound check, the index is not currently stored, and
`total_chunks ≠ 0`. -/
theorem upload_chunk_ignores_session_status (cfg : UploadConfig)
    (compressF : List Nat → List Nat) (md5F : List Nat → String)
    (mgr : Manager) (sid : String) (session : UploadSession) (cid : Int)
    (data : List Nat) (now : Nat)
    (hs : alookup sid mgr = some session)
    (_hstatus : session.status ≠ "uploading")
    (hidx : ¬ session.total_chunks ≤ cid)
    (hdup : alookup cid session.uploaded_chunks = none)
    (hnz : session.total_chunks ≠ 0) :
    (upload_chunk cfg compressF md5F mgr sid cid data now).1 =
      .success cid (md5F data)
        (processChunk cfg compressF md5F cid data now).size
        (processChunk cfg compressF md5F cid data now).compressed ∧
    alookup sid (upload_chunk cfg compressF md5F mgr sid cid data now).2 =
      some { session with
        uploaded_chunks := session.uploaded_chunks ++
          [(cid, processChunk cfg compressF md5F cid data now)],
        last_activity := now } := by
  constructor
  · simp [upload_chunk, hs, hidx, hdup, hnz, processChunk]
  · have h2 : alookup sid (updateSession mgr sid
        { session with
          uploaded_chunks := session.uploaded_chunks ++
            [(cid, processChunk cfg compressF md5F cid data now)],
          last_activity := now }) =
        some { session with
          uploaded_chunks := session.uploaded_chunks ++
            [(cid, processChunk cfg compressF md5F cid data now)],
          last_activity := now } :=
      alookup_updateSession_self mgr sid _ session hs
    simp only [upload_chunk, hs]
    rw [if_neg hidx]
    simp only [hdup, Option.isSome_none, Bool.false_eq_true, if_false]
    rw [if_neg hnz]
    exact h2

/-- Witness for the amended C6: on the concrete `'completed'` session of
`completedMgr`, a further `PutChunk` is accepted and stored. -/
theorem upload_chunk_ignores_session_status_witness :
    (upload_chunk defaultConfig gzipC md5C completedMgr "s" 0 [6] 2).1 =
      .success 0 (md5C [6])
        (processChunk defaultConfig gzipC md5C 0 [6] 2).size
        (processChunk defaultConfig gzipC md5C 0 [6] 2).compressed ∧
    alookup "s" (upload_chunk defaultConfig gzipC md5C completedMgr "s" 0 [6] 2).2 =
      some { (alookup "s" completedMgr).getD emptySession with
        uploaded_chunks :=
          ((alookup "s" completedMgr).getD emptySession).uploaded_chunks ++
            [(0, processChunk defaultConfig gzipC md5C 0 [6] 2)],
        last_activity := 2 } :=
  upload_chunk_ignores_session_status defaultConfig gzipC md5C completedMgr "s"
    ((alookup "s" completedMgr).getD emptySession) 0 [6] 2 (by decide)
    (by decide) (by decide) (by decide) (by decide)

/-- The manager state holding a session whose single stored chunk is
flagged compressed: created via the API with a compression stand-in that
shrinks every payload over the 1024-byte threshold to `[0]`. -/
def compressedChunkMgr : Manager :=
  (upload_chunk defaultConfig (fun _ => [0]) md5C
    (create_upload_session defaultConfig [] "f.txt" 1025 "s" 0)
    "s" 0 (List.replicate 1025 7) 1).2

/-- C9 counterexample: when assembly hits a decompression error (the
decompressor raises on the stored chunk), `assemble_file` returns the
error, but the session status is left `'assembling'`, not set to
`'failed'`: the early `return` at line 273 of `ultra_upload.py` bypasses
the outer `except` that performs `session.status = 'failed'`. -/
theorem assemble_decompress_error_counterexample :
    (assemble_file (fun _ => none) compressedChunkMgr "s").1 =
      .decompressError ∧
    (alookup "s" (assemble_file (fun _ => none) compressedChunkMgr "s").2).map
      UploadSession.status = some "assembling" ∧
    (alookup "s" (assemble_file (fun _ => none) compressedChunkMgr "s").2).map
      UploadSession.status ≠ some "failed" := by
  exact ⟨by decide, by decide, by decide⟩

/-- C9 as amended: on a decompression error mid-assembly, `assemble_file`
returns an error — the partial output is never returned as a success — but
the session status is left `'assembling'` rather than set to `'failed'`
(only exceptions that reach the outer `except` at line 317, such as I/O
errors from `open`/`write`, mark the session `'failed'`). -/
theorem assemble_decompress_error_leaves_assembling
    (decompressF : List Nat → Option (List Nat)) (mgr : Manager)
    (sid : String) (session : UploadSession)
    (hs : alookup sid mgr = some session)
    (hc : (session.uploaded_chunks.length : Int) = session.total_chunks)
    (hfail : concatChunks decompressF
        (List.insertionSort (fun a b => a.chunk_id ≤ b.chunk_id)
          (session.uploaded_chunks.map Prod.snd)) = none) :
    assemble_file decompressF mgr sid =
      (.decompressError,
       updateSession mgr sid { session with status := "assembling" }) := by
  simp [assemble_file, hs, hc, hfail]

/-- Witness for the amended C9, at the concrete failing assembly of
`compressedChunkMgr`. -/
theorem assemble_decompress_error_leaves_assembling_witness :
    assemble_file (fun _ => none) compressedChunkMgr "s" =
      (.decompressError,
       updateSession compressedChunkMgr "s"
         { (alookup "s" compressedChunkMgr).getD emptySession with
           status := "assembling" }) :=
  assemble_decompress_error_leaves_assembling (fun _ => none)
    compressedChunkMgr "s" ((alookup "s" compressedChunkMgr).getD emptySession)
    (by decide) (by decide) (by decide)

/-- Projection of the `uploaded_size` field out of a progress result, for
stating facts about the report without fixing its other fields. -/
def progressUploadedSize : ProgressResult → Option Nat
  | .ok r => some r.uploaded_size
  | _ => none

/-- Reading progress on a found session with a non-zero chunk count yields
the report of `get_upload_progress` lines 224-239. -/
theorem get_upload_progress_ok (mgr : Manager) (sid : String)
    (session : UploadSession) (hs : alookup sid mgr = some session)
    (hnz : session.total_chunks ≠ 0) :
    get_upload_progress mgr sid =
      .ok { session_id := session.session_id, filename := session.filename,
            total_size := session.total_size,
            uploaded_size := (session.uploaded_chunks.map (fun p => p.2.size)).sum,
            total_chunks := session.total_chunks,
            uploaded_chunks := session.uploaded_chunks.length,
            status := session.status,
            compression_enabled := session.compression_enabled,
            parallel_processing := session.parallel_processing } := by
  simp [get_upload_progress, hs, hnz]

/-- C10: for every accepted chunk, the checksum returned (and stored) is
`md5F` of the payload exactly as submitted — computed at line 149 of
`ultra_upload.py`, before compression — while the returned and stored
`size` is the byte length of the possibly-compressed stored form; when the
chunk is stored compressed, the stored form is `compressF` of the payload
and is strictly smaller than the payload the checksum covers (so the size
differs from the length of the checksummed data); and `get_upload_progress`
sums exactly these post-compression sizes. -/
theorem upload_chunk_checksum_and_size (cfg : UploadConfig)
    (compressF : List Nat → List Nat) (md5F : List Nat → String)
    (mgr : Manager) (sid : String) (session : UploadSession) (cid : Int)
    (data : List Nat) (now : Nat)
    (hs : alookup sid mgr = some session)
    (hidx : ¬ session.total_chunks ≤ cid)
    (hdup : alookup cid session.uploaded_chunks = none)
    (hnz : session.total_chunks ≠ 0) :
    (upload_chunk cfg compressF md5F mgr sid cid data now).1 =
      .success cid (md5F data)
        (processChunk cfg compressF md5F cid data now).data.length
        (processChunk cfg compressF md5F cid data now).compressed ∧
    (processChunk cfg compressF md5F cid data now).checksum = md5F data ∧
    (processChunk cfg compressF md5F cid data now).size =
      (processChunk cfg compressF md5F cid data now).data.length ∧
    (processChunk cfg compressF md5F cid data now).data =
      (if (processChunk cfg compressF md5F cid data now).compressed = true
       then compressF data else data) ∧
    ((processChunk cfg compressF md5F cid data now).compressed = false ∨
      (processChunk cfg compressF md5F cid data now).data.length < data.length) ∧
    progressUploadedSize
      (get_upload_progress (upload_chunk cfg compressF md5F mgr sid cid data now).2 sid) =
      some ((session.uploaded_chunks.map (fun p => p.2.size)).sum +
        (processChunk cfg compressF md5F cid data now).data.length) := by
  refine ⟨?_, ?_, ?_, ?_, ?_, ?_⟩
  · simp [upload_chunk, hs, hidx, hdup, hnz, processChunk]
  · simp [processChunk]
  · simp [processChunk]
  · simp only [processChunk]
    split
    · split
      · simp
      · simp
    · simp
  · simp only [processChunk]
    split
    · split
      · simp_all
      · simp
    · simp
  · have h2 : alookup sid (updateSession mgr sid
        { session with
          uploaded_chunks := session.uploaded_chunks ++
            [(cid, processChunk cfg compressF md5F cid data now)],
          last_activity := now }) =
        some { session with
          uploaded_chunks := session.uploaded_chunks ++
            [(cid, processChunk cfg compressF md5F cid data now)],
          last_activity := now } :=
      alookup_updateSession_self mgr sid _ session hs
    have hres : (upload_chunk cfg compressF md5F mgr sid cid data now).2 =
        updateSession mgr sid
          { session with
            uploaded_chunks := session.uploaded_chunks ++
              [(cid, processChunk cfg compressF md5F cid data now)],
            last_activity := now } := by
      simp [upload_chunk, hs, hidx, hdup, hnz]
    rw [hres]
    rw [get_upload_progress_ok _ _ _ h2 hnz]
    simp [progressUploadedSize, processChunk]

/-- Witness for C10 on a concrete accepted chunk. -/
theorem upload_chunk_checksum_and_size_witness :
    (upload_chunk defaultConfig gzipC md5C
        (create_upload_session defaultConfig [] "f.txt" 3 "s" 0)
        "s" 0 [5] 1).1 =
      .success 0 (md5C [5])
        (processChunk defaultConfig gzipC md5C 0 [5] 1).data.length
        (processChunk defaultConfig gzipC md5C 0 [5] 1).compressed ∧
    (processChunk defaultConfig gzipC md5C 0 [5] 1).checksum = md5C [5] ∧
    (processChunk defaultConfig gzipC md5C 0 [5] 1).size =
      (processChunk defaultConfig gzipC md5C 0 [5] 1).data.length ∧
    (processChunk defaultConfig gzipC md5C 0 [5] 1).data =
      (if (processChunk defaultConfig gzipC md5C 0 [5] 1).compressed = true
       then gzipC [5] else [5]) ∧
    ((processChunk defaultConfig gzipC md5C 0 [5] 1).compressed = false ∨
      (processChunk defaultConfig gzipC md5C 0 [5] 1).data.length < [5].length) ∧
    progressUploadedSize
      (get_upload_progress
        (upload_chunk defaultConfig gzipC md5C
          (create_upload_session defaultConfig [] "f.txt" 3 "s" 0)
          "s" 0 [5] 1).2 "s") =
      some ((((alookup "s"
            (create_upload_session defaultConfig [] "f.txt" 3 "s" 0)).getD
          emptySession).uploaded_chunks.map (fun p => p.2.size)).sum +
        (processChunk defaultConfig gzipC md5C 0 [5] 1).data.length) :=
  upload_chunk_checksum_and_size defaultConfig gzipC md5C
    (create_upload_session defaultConfig [] "f.txt" 3 "s" 0) "s"
    ((alookup "s" (create_upload_session defaultConfig [] "f.txt" 3 "s" 0)).getD
      emptySession)
    0 [5] 1 (by decide) (by decide) (by decide) (by decide)

/-! ### Locking-cipher theorems -/

/-- Parsing `salt(16) ++ iv(16) ++ mac(32) ++ ct` recovers the fields. -/
theorem envelope_slices (salt iv mac ct : List Nat)
    (hs : salt.length = 16) (hi : iv.length = 16) (hm : mac.length = 32) :
    (salt ++ iv ++ mac ++ ct).take 16 = salt ∧
    ((salt ++ iv ++ mac ++ ct).drop 16).take 16 = iv ∧
    ((salt ++ iv ++ mac ++ ct).drop 32).take 32 = mac ∧
    (salt ++ iv ++ mac ++ ct).drop 64 = ct := by
  simp only [List.append_assoc]
  have h2 : (salt ++ (iv ++ (mac ++ ct))).drop 16 = iv ++ (mac ++ ct) :=
    List.drop_left' hs
  have h32 : (salt ++ (iv ++ (mac ++ ct))).drop 32 = mac ++ ct := by
    have h1616 : (16 : Nat) + 16 = 32 := rfl
    rw [← h1616, ← List.drop_drop, h2]
    exact List.drop_left' hi
  refine ⟨List.take_left' hs, ?_, ?_, ?_⟩
  · rw [h2]; exact List.take_left' hi
  · rw [h32]; exact List.take_left' hm
  · have h3232 : (32 : Nat) + 32 = 64 := rfl
    rw [← h3232, ← List.drop_drop, h32]
    exact List.drop_left' hm

/-- The PKCS#7-style padding added by `encrypt_file` ends in the pad length
and stripping that many bytes recovers the plaintext. -/
theorem unpad_pad (P : List Nat) :
    (P ++ List.replicate (16 - P.length % 16) (16 - P.length % 16)).getLast? =
      some (16 - P.length % 16) ∧
    (P ++ List.replicate (16 - P.length % 16) (16 - P.length % 16)).take
      ((P ++ List.replicate (16 - P.length % 16) (16 - P.length % 16)).length -
        (16 - P.length % 16)) = P := by
  have hmod : P.length % 16 < 16 := Nat.mod_lt _ (by norm_num)
  obtain ⟨m, hm⟩ : ∃ m, 16 - P.length % 16 = m + 1 :=
    ⟨16 - P.length % 16 - 1, by omega⟩
  constructor
  · rw [hm, List.replicate_succ', ← List.append_assoc, List.getLast?_concat]
  · have hlen : (P ++ List.replicate (16 - P.length % 16)
        (16 - P.length % 16)).length - (16 - P.length % 16) = P.length := by
      simp
    rw [hlen]
    exact List.take_left P _

/-- Once the envelope parses and the recomputed tag matches the stored one,
`decrypt_file` reaches the padding-stripping step on the raw decryption of
the ciphertext. -/
theorem decrypt_after_verification
    (kdfF : List Nat → List Nat → List Nat)
    (hmacF : List Nat → List Nat → List Nat)
    (decF : List Nat → List Nat → List Nat → List Nat)
    (salt iv mac ct pw : List Nat)
    (hs : salt.length = 16) (hi : iv.length = 16) (hm : mac.length = 32)
    (hctlen : 16 ≤ ct.length) (hblk : ct.length % 16 = 0)
    (htag : hmacF (kdfF pw salt) (iv ++ ct) = mac) :
    decrypt_file kdfF hmacF decF (salt ++ iv ++ mac ++ ct) pw =
      match (decF (kdfF pw salt) iv ct).getLast? with
      | none => .error .indexError
      | some padding_length =>
          .ok (if padding_length = 0 then []
               else (decF (kdfF pw salt) iv ct).take
                 ((decF (kdfF pw salt) iv ct).length - padding_length)) := by
  obtain ⟨e1, e2, e3, e4⟩ := envelope_slices salt iv mac ct hs hi hm
  have hlen : (salt ++ iv ++ mac ++ ct).length = 64 + ct.length := by
    simp [hs, hi, hm]; omega
  simp only [decrypt_file, e1, e2, e3, e4, htag]
  rw [if_neg (by omega : ¬ (salt ++ iv ++ mac ++ ct).length < 80)]
  simp [hblk]

/-- C2: the lock/unlock round trip.  For every plaintext `P`, password `W`
and 16-byte random draws `salt`, `iv`, decrypting the envelope produced by
`encrypt_file` with the same password recovers `P` exactly, given the laws
of the external primitives: HMAC-SHA256 tags are 32 bytes, AES-CBC is
length-preserving, and CBC decryption inverts CBC encryption under the same
key and IV. -/
theorem lock_unlock_roundtrip
    (kdfF : List Nat → List Nat → List Nat)
    (hmacF : List Nat → List Nat → List Nat)
    (encF decF : List Nat → List Nat → List Nat → List Nat)
    (salt iv P W : List Nat)
    (hsalt : salt.length = 16) (hiv : iv.length = 16)
    (hmac32 : ∀ k m, (hmacF k m).length = 32)
    (hencLen : ∀ k i m, (encF k i m).length = m.length)
    (hdec : ∀ k i m, decF k i (encF k i m) = m) :
    decrypt_file kdfF hmacF decF (encrypt_file kdfF hmacF encF salt iv P W) W =
      .ok P := by
  have hmod : P.length % 16 < 16 := Nat.mod_lt _ (by norm_num)
  have hmodle : P.length % 16 ≤ P.length := Nat.mod_le _ _
  have henv : encrypt_file kdfF hmacF encF salt iv P W =
      salt ++ iv ++
        hmacF (kdfF W salt) (iv ++ encF (kdfF W salt) iv
          (P ++ List.replicate (16 - P.length % 16) (16 - P.length % 16))) ++
        encF (kdfF W salt) iv
          (P ++ List.replicate (16 - P.length % 16) (16 - P.length % 16)) := rfl
  have hctlen : (encF (kdfF W salt) iv
      (P ++ List.replicate (16 - P.length % 16) (16 - P.length % 16))).length =
      P.length + (16 - P.length % 16) := by
    rw [hencLen]; simp
  rw [henv, decrypt_after_verification kdfF hmacF decF _ _ _ _ _ hsalt hiv
    (hmac32 _ _) (by omega) (by omega) rfl]
  rw [hdec]
  obtain ⟨hlast, htake⟩ := unpad_pad P
  rw [hlast]
  have hne : ¬ (16 - P.length % 16) = 0 := by omega
  simp [hne, htake]

/-- Witness for C2 with the concrete primitive stand-ins. -/
theorem lock_unlock_roundtrip_witness :
    decrypt_file kdfC hmacC decC
      (encrypt_file kdfC hmacC encC (List.replicate 16 0) (List.replicate 16 1)
        [104, 105] [7, 8]) [7, 8] = .ok [104, 105] :=
  lock_unlock_roundtrip kdfC hmacC encC decC (List.replicate 16 0)
    (List.replicate 16 1) [104, 105] [7, 8] (by decide) (by decide)
    (fun _ _ => by simp [hmacC]) (fun _ _ _ => rfl) (fun _ _ _ => rfl)

/-- C3: unlocking with a different password fails closed with the
`AuthenticationFailed` error (`ValueError("Invalid password or corrupted
data")`) and returns no plaintext, provided the tag recomputed under the
wrong password's derived key differs from the stored tag (the MAC-security
idealisation of HMAC-SHA256 under PBKDF2-separated keys).  The conclusion
holds for EVERY choice of block-cipher decryption function `decF`: the HMAC
is verified before the cipher is ever consulted, so decryption cannot
influence the outcome — the verify-then-decrypt ordering of
`decrypt_file` (`b_transfer_server.py` lines 134-141 before 143-146). -/
theorem unlock_wrong_password_authfailed
    (kdfF : List Nat → List Nat → List Nat)
    (hmacF : List Nat → List Nat → List Nat)
    (encF : List Nat → List Nat → List Nat → List Nat)
    (salt iv P W W2 : List Nat)
    (hsalt : salt.length = 16) (hiv : iv.length = 16)
    (hmac32 : ∀ k m, (hmacF k m).length = 32)
    (hencLen : ∀ k i m, (encF k i m).length = m.length)
    (_hW : W2 ≠ W)
    (htag : hmacF (kdfF W2 salt)
        (iv ++ encF (kdfF W salt) iv
          (P ++ List.replicate (16 - P.length % 16) (16 - P.length % 16))) ≠
        hmacF (kdfF W salt)
          (iv ++ encF (kdfF W salt) iv
            (P ++ List.replicate (16 - P.length % 16) (16 - P.length % 16)))) :
    ∀ decF, decrypt_file kdfF hmacF decF
        (encrypt_file kdfF hmacF encF salt iv P W) W2 =
        .error .authFailed := by
  intro decF
  set ctE := encF (kdfF W salt) iv
    (P ++ List.replicate (16 - P.length % 16) (16 - P.length % 16)) with hct
  set macE := hmacF (kdfF W salt) (iv ++ ctE) with hmacE
  have henv : encrypt_file kdfF hmacF encF salt iv P W =
      salt ++ iv ++ macE ++ ctE := rfl
  obtain ⟨e1, e2, e3, e4⟩ := envelope_slices salt iv macE ctE hsalt hiv
    (by rw [hmacE]; exact hmac32 _ _)
  have hmod : P.length % 16 < 16 := Nat.mod_lt _ (by norm_num)
  have hmodle : P.length % 16 ≤ P.length := Nat.mod_le _ _
  have hctlen : ctE.length = P.length + (16 - P.length % 16) := by
    rw [hct, hencLen]; simp
  have hmlen : macE.length = 32 := by rw [hmacE]; exact hmac32 _ _
  have hlen : (salt ++ iv ++ macE ++ ctE).length = 64 + ctE.length := by
    simp [hsalt, hiv, hmlen]; omega
  rw [henv]
  simp only [decrypt_file, e1, e2, e3, e4]
  rw [if_neg (by omega : ¬ (salt ++ iv ++ macE ++ ctE).length < 80)]
  rw [if_pos htag]

/-- Witness for C3 with the concrete primitive stand-ins: locking `[1]`
under password `[3]` and unlocking under password `[4]`. -/
theorem unlock_wrong_password_authfailed_witness :
    decrypt_file kdfC hmacC decC
      (encrypt_file kdfC hmacC encC (List.replicate 16 0) (List.replicate 16 0)
        [1] [3]) [4] = .error .authFailed :=
  unlock_wrong_password_authfailed kdfC hmacC encC (List.replicate 16 0)
    (List.replicate 16 0) [1] [3] [4] (by decide) (by decide)
    (fun _ _ => by simp [hmacC]) (fun _ _ _ => rfl) (by decide) (by decide) decC

/-- An envelope that verifies under password `[7]` with the concrete
stand-in primitives, but whose decrypted block `replicate 15 7 ++ [5]`
carries malformed padding: the trailing pad-length byte is 5, yet the five
trailing bytes are `7, 7, 7, 7, 5`. -/
def malformedPadEnvelope : List Nat :=
  List.replicate 16 0 ++ List.replicate 16 0 ++
    hmacC (kdfC [7] (List.replicate 16 0))
      (List.replicate 16 0 ++ (List.replicate 15 7 ++ [5])) ++
    (List.replicate 15 7 ++ [5])

/-- C4 counterexample: `decrypt_file` performs no padding validation
(`b_transfer_server.py` lines 147-149: `padding_length = padded_data[-1];
return padded_data[:-padding_length]`).  On `malformedPadEnvelope` the
integrity tag verifies, the padding is malformed, and the result is a
silently truncated `.ok` — not the `AuthenticationFailed` the claim
requires. -/
theorem decrypt_malformed_padding_counterexample :
    hmacC (kdfC [7] (malformedPadEnvelope.take 16))
      ((malformedPadEnvelope.drop 16).take 16 ++ malformedPadEnvelope.drop 64) =
      (malformedPadEnvelope.drop 32).take 32 ∧
    (List.replicate 15 7 ++ [5]).drop (16 - 5) ≠ List.replicate 5 5 ∧
    decrypt_file kdfC hmacC decC malformedPadEnvelope [7] =
      .ok (List.replicate 11 7) ∧
    decrypt_file kdfC hmacC decC malformedPadEnvelope [7] ≠
      .error .authFailed := by
  exact ⟨by decide, by decide, by decide, by decide⟩

/-- C4 as amended: after a successful integrity-tag verification,
`decrypt_file` never validates the padding.  It takes the trailing byte of
the decrypted data as the pad length without checking that it is in range
or that the padding bytes match, and always returns `.ok` with that many
trailing bytes removed (everything removed when the byte is 0 — Python's
`[:-0]` — or when it exceeds the length); malformed padding is silently
mis-truncated, never rejected as `AuthenticationFailed`. -/
theorem decrypt_strips_padding_unchecked
    (kdfF : List Nat → List Nat → List Nat)
    (hmacF : List Nat → List Nat → List Nat)
    (decF : List Nat → List Nat → List Nat → List Nat)
    (salt iv mac ct pw : List Nat)
    (hs : salt.length = 16) (hi : iv.length = 16) (hm : mac.length = 32)
    (hctlen : 16 ≤ ct.length) (hblk : ct.length % 16 = 0)
    (htag : hmacF (kdfF pw salt) (iv ++ ct) = mac)
    (hne : decF (kdfF pw salt) iv ct ≠ []) :
    decrypt_file kdfF hmacF decF (salt ++ iv ++ mac ++ ct) pw =
      .ok (if (decF (kdfF pw salt) iv ct).getLastD 0 = 0 then []
           else (decF (kdfF pw salt) iv ct).take
             ((decF (kdfF pw salt) iv ct).length -
               (decF (kdfF pw salt) iv ct).getLastD 0)) := by
  rw [decrypt_after_verification kdfF hmacF decF salt iv mac ct pw hs hi hm
    hctlen hblk htag]
  obtain ⟨x, hx⟩ := Option.isSome_iff_exists.mp
    (by rw [List.getLast?_isSome]; exact hne)
  have hgd : (decF (kdfF pw salt) iv ct).getLastD 0 = x := by
    rw [List.getLastD_eq_getLast?, hx]; rfl
  rw [hx, hgd]

/-- Witness for the amended C4 at the components of
`malformedPadEnvelope`. -/
theorem decrypt_strips_padding_unchecked_witness :
    decrypt_file kdfC hmacC decC
      (List.replicate 16 0 ++ List.replicate 16 0 ++
        hmacC (kdfC [7] (List.replicate 16 0))
          (List.replicate 16 0 ++ (List.replicate 15 7 ++ [5])) ++
        (List.replicate 15 7 ++ [5])) [7] =
      .ok (if ((List.replicate 15 7 ++ [5]).getLastD 0) = 0 then []
           else (List.replicate 15 7 ++ [5]).take
             ((List.replicate 15 7 ++ [5]).length -
               (List.replicate 15 7 ++ [5]).getLastD 0)) :=
  decrypt_strips_padding_unchecked kdfC hmacC decC (List.replicate 16 0)
    (List.replicate 16 0)
    (hmacC (kdfC [7] (List.replicate 16 0))
      (List.replicate 16 0 ++ (List.replicate 15 7 ++ [5])))
    (List.replicate 15 7 ++ [5]) [7] (by decide) (by decide)
    (by simp [hmacC]) (by decide) (by decide) rfl (by decide)

/-! ### Round-trip assembly (C1) -/

/-- Submitting a list of chunk indices in order, each with its payload,
threading the manager state through `upload_chunk`. -/
def submitChunks (cfg : UploadConfig) (compressF : List Nat → List Nat)
    (md5F : List Nat → String) (sid : String) (payload : Nat → List Nat)
    (now : Nat) : Manager → List Nat → Manager
  | mgr, [] => mgr
  | mgr, i :: rest =>
      submitChunks cfg compressF md5F sid payload now
        (upload_chunk cfg compressF md5F mgr sid (i : Int) (payload i) now).2
        rest

instance : IsTrans UploadChunk (fun a b => a.chunk_id ≤ b.chunk_id) :=
  ⟨fun _ _ _ => le_trans⟩

instance : IsTotal UploadChunk (fun a b => a.chunk_id ≤ b.chunk_id) :=
  ⟨fun a b => le_total a.chunk_id b.chunk_id⟩

instance : IsAntisymm UploadChunk (fun a b => a.chunk_id < b.chunk_id) :=
  ⟨fun _ _ h1 h2 => absurd (lt_trans h1 h2) (lt_irrefl _)⟩

/-- A chunk index not in `done` is absent from the chunk map holding
exactly the entries of `done`. -/
theorem alookup_natCast_map_none (g : Nat → UploadChunk) (done : List Nat)
    (i : Nat) (h : i ∉ done) :
    alookup (i : Int) (done.map (fun (d : Nat) => ((d : Int), g d))) = none := by
  induction done with
  | nil => rfl
  | cons d rest ih =>
    have hne : ¬ ((d : Int) = (i : Int)) := by
      intro he
      exact h (by simp at he; simp [he])
    simp only [List.map_cons, alookup]
    rw [if_neg hne]
    exact ih (fun hm => h (List.mem_cons_of_mem _ hm))

/-- The submit-fold invariant: starting from a session holding exactly the
chunks of `done`, submitting the distinct in-range indices of `rest` leaves
the session holding exactly the chunks of `done ++ rest`, with the chunk at
each index `d` being `processChunk` of `payload d`. -/
theorem submitChunks_invariant (cfg : UploadConfig)
    (compressF : List Nat → List Nat) (md5F : List Nat → String)
    (sid : String) (payload : Nat → List Nat) (now : Nat) (n : Nat) :
    ∀ (rest done : List Nat) (mgr : Manager) (session : UploadSession),
    alookup sid mgr = some session →
    session.total_chunks = (n : Int) →
    session.uploaded_chunks = done.map (fun (d : Nat) =>
      ((d : Int), processChunk cfg compressF md5F (d : Int) (payload d) now)) →
    (done ++ rest).Nodup →
    (∀ i ∈ rest, i < n) →
    ∃ session',
      alookup sid (submitChunks cfg compressF md5F sid payload now mgr rest) =
        some session' ∧
      session'.total_chunks = (n : Int) ∧
      session'.uploaded_chunks = (done ++ rest).map (fun (d : Nat) =>
        ((d : Int), processChunk cfg compressF md5F (d : Int) (payload d) now)) := by
  intro rest
  induction rest with
  | nil =>
    intro done mgr session hs htc huc _ _
    exact ⟨session, by simpa [submitChunks] using hs, htc, by simpa using huc⟩
  | cons i rest' ih =>
    intro done mgr session hs htc huc hnodup hsub
    have hin : i < n := hsub i (List.mem_cons_self i rest')
    have hidx : ¬ session.total_chunks ≤ (i : Int) := by
      rw [htc]
      exact_mod_cast Nat.not_le.mpr hin
    have hi_not_done : i ∉ done := by
      intro hmem
      exact (List.nodup_append.mp hnodup).2.2 hmem (List.mem_cons_self i rest')
    have hdup : alookup (i : Int) session.uploaded_chunks = none := by
      rw [huc]
      exact alookup_natCast_map_none _ done i hi_not_done
    have hnz : session.total_chunks ≠ 0 := by
      rw [htc]
      have hn0 : n ≠ 0 := by omega
      exact_mod_cast hn0
    have hstep : (upload_chunk cfg compressF md5F mgr sid (i : Int)
        (payload i) now).2 =
        updateSession mgr sid { session with
          uploaded_chunks := session.uploaded_chunks ++
            [((i : Int), processChunk cfg compressF md5F (i : Int) (payload i) now)],
          last_activity := now } := by
      simp [upload_chunk, hs, hidx, hdup, hnz]
    have hs' : alookup sid (upload_chunk cfg compressF md5F mgr sid (i : Int)
        (payload i) now).2 =
        some { session with
          uploaded_chunks := session.uploaded_chunks ++
            [((i : Int), processChunk cfg compressF md5F (i : Int) (payload i) now)],
          last_activity := now } := by
      rw [hstep]
      exact alookup_updateSession_self mgr sid _ session hs
    have hnodup' : ((done ++ [i]) ++ rest').Nodup := by
      rw [← List.append_cons]
      exact hnodup
    have huc' : ({ session with
        uploaded_chunks := session.uploaded_chunks ++
          [((i : Int), processChunk cfg compressF md5F (i : Int) (payload i) now)],
        last_activity := now } : UploadSession).uploaded_chunks =
        (done ++ [i]).map (fun (d : Nat) =>
          ((d : Int), processChunk cfg compressF md5F (d : Int) (payload d) now)) := by
      simp [huc]
    obtain ⟨session', h1, h2, h3⟩ := ih (done ++ [i]) _ _ hs' htc huc' hnodup'
      (fun j hj => hsub j (List.mem_cons_of_mem _ hj))
    refine ⟨session', ?_, h2, ?_⟩
    · simpa [submitChunks] using h1
    · rw [h3, ← List.append_cons]

/-- Sorting the values of a chunk map whose keys enumerate a permutation of
`0..n-1` yields the chunks in index order: Python's
`sorted(session.uploaded_chunks.values(), key=lambda x: x.chunk_id)` puts
chunk `0` first, then chunk `1`, and so on. -/
theorem insertionSort_chunk_values (g : Nat → UploadChunk)
    (hg : ∀ i, (g i).chunk_id = (i : Int)) (n : Nat) (order : List Nat)
    (hperm : order.Perm (List.range n)) :
    List.insertionSort (fun a b => a.chunk_id ≤ b.chunk_id) (order.map g) =
      (List.range n).map g := by
  have hperm2 : List.Perm
      (List.insertionSort (fun a b : UploadChunk => a.chunk_id ≤ b.chunk_id)
        (order.map g))
      ((List.range n).map g) :=
    (List.perm_insertionSort _ _).trans (hperm.map g)
  apply List.eq_of_perm_of_sorted
    (r := fun a b : UploadChunk => a.chunk_id < b.chunk_id) hperm2
  · have hsorted : List.Sorted (fun a b : UploadChunk => a.chunk_id ≤ b.chunk_id)
        (List.insertionSort (fun a b : UploadChunk => a.chunk_id ≤ b.chunk_id)
          (order.map g)) :=
      List.sorted_insertionSort _ _
    have hcanon_nodup : (((List.range n).map g).map
        (fun c : UploadChunk => c.chunk_id)).Nodup := by
      rw [List.map_map]
      have hfun : ((fun c : UploadChunk => c.chunk_id) ∘ g) =
          (fun i : Nat => (i : Int)) := by
        funext i; simp [hg]
      rw [hfun]
      exact (List.nodup_range n).map (fun a b => Int.natCast_inj.mp)
    have hnodup : ((List.insertionSort
        (fun a b : UploadChunk => a.chunk_id ≤ b.chunk_id)
        (order.map g)).map (fun c : UploadChunk => c.chunk_id)).Nodup :=
      ((hperm2.map (fun c : UploadChunk => c.chunk_id)).symm).nodup hcanon_nodup
    have hne : List.Pairwise (fun a b : UploadChunk => a.chunk_id ≠ b.chunk_id)
        (List.insertionSort (fun a b : UploadChunk => a.chunk_id ≤ b.chunk_id)
          (order.map g)) :=
      List.pairwise_map.mp hnodup
    exact (hsorted.and hne).imp (fun h => lt_of_le_of_ne h.1 h.2)
  · rw [List.Sorted, List.pairwise_map]
    apply (List.pairwise_lt_range n).imp
    intro a b hab
    rw [hg, hg]
    exact_mod_cast hab

/-- A chunk produced by `processChunk` decompresses (or reads back) to the
original submitted payload, given that the decompressor inverts the
compressor. -/
theorem processChunk_piece (cfg : UploadConfig)
    (compressF : List Nat → List Nat)
    (decompressF : List Nat → Option (List Nat))
    (md5F : List Nat → String)
    (hrt : ∀ d, decompressF (compressF d) = some d)
    (cid : Int) (data : List Nat) (now : Nat) :
    (if (processChunk cfg compressF md5F cid data now).compressed
     then decompressF (processChunk cfg compressF md5F cid data now).data
     else some (processChunk cfg compressF md5F cid data now).data) =
      some data := by
  by_cases hA : (cfg.enable_compression = true ∧ 1024 < data.length)
  · by_cases hB : (compressF data).length < data.length
    · simp [processChunk, hA, hB, hrt]
    · simp [processChunk, hA, hB]
  · simp [processChunk, hA]

/-- Concatenating a list of chunks whose entries each decompress to their
payload yields the concatenation of the payloads. -/
theorem concatChunks_map (decompressF : List Nat → Option (List Nat))
    (g : Nat → UploadChunk) (payload : Nat → List Nat)
    (hpiece : ∀ i, (if (g i).compressed then decompressF (g i).data
      else some (g i).data) = some (payload i)) :
    ∀ l : List Nat,
      concatChunks decompressF (l.map g) = some (l.flatMap payload) := by
  intro l
  induction l with
  | nil => rfl
  | cons i rest ih =>
    simp only [List.map_cons, concatChunks, hpiece i, ih, List.flatMap_cons]

/-- A completeness-passing session whose sorted chunks all concatenate
successfully assembles to that concatenation, moves to `'completed'`, and
releases its chunk map. -/
theorem assemble_success (decompressF : List Nat → Option (List Nat))
    (mgr : Manager) (sid : String) (session : UploadSession) (out : List Nat)
    (hs : alookup sid mgr = some session)
    (hc : (session.uploaded_chunks.length : Int) = session.total_chunks)
    (hok : concatChunks decompressF
        (List.insertionSort (fun a b : UploadChunk => a.chunk_id ≤ b.chunk_id)
          (session.uploaded_chunks.map Prod.snd)) = some out) :
    assemble_file decompressF mgr sid =
      (.success out out.length,
       updateSession mgr sid
         { session with status := "completed", uploaded_chunks := [] }) := by
  simp [assemble_file, hs, hc, hok]

/-- C1: the chunked-upload round trip.  Create a session (under a fresh
session id) for a total size whose chunk count is `n`, submit each chunk
index `0..n-1` exactly once in an arbitrary permutation `order` (each index
`i` carrying payload `payload i`), then assemble: assembly succeeds and the
output is exactly the concatenation of the payloads in index order —
regardless of the submission order — with the compression applied on
storage undone by the decompressor (hypothesis `hrt`: `decompressF` inverts
`compressF`, the gzip round trip).  The session ends `'completed'`. -/
theorem create_submit_assemble_roundtrip (cfg : UploadConfig)
    (compressF : List Nat → List Nat)
    (decompressF : List Nat → Option (List Nat))
    (md5F : List Nat → String)
    (hrt : ∀ d, decompressF (compressF d) = some d)
    (mgr0 : Manager) (sid filename : String) (total_size : Int)
    (now now2 : Nat) (hfresh : alookup sid mgr0 = none)
    (n : Nat)
    (hn : (total_size + (cfg.chunk_size : Int) - 1).fdiv (cfg.chunk_size : Int)
      = (n : Int))
    (payload : Nat → List Nat) (order : List Nat)
    (hperm : order.Perm (List.range n)) :
    (assemble_file decompressF
      (submitChunks cfg compressF md5F sid payload now2
        (create_upload_session cfg mgr0 filename total_size sid now) order)
      sid).1 =
      .success ((List.range n).flatMap payload)
        ((List.range n).flatMap payload).length ∧
    (alookup sid (assemble_file decompressF
      (submitChunks cfg compressF md5F sid payload now2
        (create_upload_session cfg mgr0 filename total_size sid now) order)
      sid).2).map UploadSession.status = some "completed" := by
  have hs0 : alookup sid
      (create_upload_session cfg mgr0 filename total_size sid now) =
      some { session_id := sid, filename := filename,
             total_size := total_size, chunk_size := cfg.chunk_size,
             total_chunks :=
               (total_size + (cfg.chunk_size : Int) - 1).fdiv (cfg.chunk_size : Int),
             uploaded_chunks := [], start_time := now, last_activity := now,
             status := "uploading",
             compression_enabled := cfg.enable_compression,
             parallel_processing := cfg.enable_parallel } :=
    alookup_append_fresh mgr0 sid _ hfresh
  obtain ⟨sessF, hsF, htcF, hucF⟩ :=
    submitChunks_invariant cfg compressF md5F sid payload now2 n order [] _ _
      hs0 hn rfl
      (by simpa using (hperm.nodup_iff.mpr (List.nodup_range n)))
      (fun i hi => List.mem_range.mp (hperm.subset hi))
  have hcount : ((sessF.uploaded_chunks.length : Int)) = sessF.total_chunks := by
    rw [hucF, htcF]
    simp [List.length_map, hperm.length_eq, List.length_range]
  have hvals : sessF.uploaded_chunks.map Prod.snd =
      order.map (fun d : Nat =>
        processChunk cfg compressF md5F (d : Int) (payload d) now2) := by
    rw [hucF]
    simp [List.map_map, Function.comp]
  have hsort : List.insertionSort
      (fun a b : UploadChunk => a.chunk_id ≤ b.chunk_id)
      (sessF.uploaded_chunks.map Prod.snd) =
      (List.range n).map (fun d : Nat =>
        processChunk cfg compressF md5F (d : Int) (payload d) now2) := by
    rw [hvals]
    exact insertionSort_chunk_values _ (fun i => by simp [processChunk]) n
      order hperm
  have hok : concatChunks decompressF
      (List.insertionSort (fun a b : UploadChunk => a.chunk_id ≤ b.chunk_id)
        (sessF.uploaded_chunks.map Prod.snd)) =
      some ((List.range n).flatMap payload) := by
    rw [hsort]
    exact concatChunks_map decompressF _ payload
      (fun i => processChunk_piece cfg compressF decompressF md5F hrt _ _ _)
      (List.range n)
  have hasm := assemble_success decompressF _ sid sessF
    ((List.range n).flatMap payload) hsF hcount hok
  constructor
  · rw [hasm]
  · rw [hasm]
    have h2 := alookup_updateSession_self _ sid
      { sessF with status := "completed", uploaded_chunks := [] } sessF hsF
    simp [h2]

/-- Witness for C1: the spec's concrete scenario — a 3 MB file in 1 MiB
chunks (`totalChunks = 3`), submitted in the order 2, 0, 1, assembles to
the concatenation of the payloads of chunks 0, 1, 2 in index order. -/
theorem create_submit_assemble_roundtrip_witness :
    (assemble_file gunzipC
      (submitChunks defaultConfig gzipC md5C "s" (fun i => [i]) 1
        (create_upload_session defaultConfig [] "f.txt" 3145728 "s" 0)
        [2, 0, 1]) "s").1 =
      .success ((List.range 3).flatMap (fun i => [i]))
        ((List.range 3).flatMap (fun i => [i])).length ∧
    (alookup "s" (assemble_file gunzipC
      (submitChunks defaultConfig gzipC md5C "s" (fun i => [i]) 1
        (create_upload_session defaultConfig [] "f.txt" 3145728 "s" 0)
        [2, 0, 1]) "s").2).map UploadSession.status = some "completed" :=
  create_submit_assemble_roundtrip defaultConfig gzipC gunzipC md5C
    (fun _ => rfl) [] "s" "f.txt" 3145728 0 1 rfl 3 (by decide)
    (fun i => [i]) [2, 0, 1] (by decide)
